import Mathlib

/-!
Shallow embedding of the tv-arm-controller core (src/tv_arm_controller.py and
src/path_recorder.py).  Python floats are modelled as rationals, stateful
methods as explicit state-passing functions, hardware commands as an emitted
command trace, and fallible operations as Option-valued functions.
-/

namespace TVArm

/-- Motor direction as driven on the TB6612FNG direction lines. -/
inductive Dir where
  | forward
  | reverse
deriving DecidableEq, Repr

/-- One hardware command issued to the X or Y motor by the controller code
(`set_direction_forward`/`set_direction_reverse`, `set_speed`, `stop_motor`). -/
inductive Cmd where
  | xSetDir (d : Dir)
  | ySetDir (d : Dir)
  | xSetSpeed (s : ℚ)
  | ySetSpeed (s : ℚ)
  | xStop
  | yStop
deriving DecidableEq, Repr

/-- `DCMotorController.set_speed`: the duty cycle commanded for input `speed`
with a per-axis `speed_multiplier` — `max(0.0, min(100.0, abs(speed * multiplier)))`. -/
def set_speed_duty (speed multiplier : ℚ) : ℚ :=
  max 0 (min 100 |speed * multiplier|)

/-- State of one DC motor as commanded: direction lines (`none` = both low,
coasting) and PWM duty cycle; `multiplier` is the motor's configured
`speed_multiplier` applied inside `set_speed`. -/
structure MotorState where
  drive : Option Dir
  duty : ℚ
  multiplier : ℚ
deriving DecidableEq, Repr

/-- A motor is commanded to stop when its direction lines are low and its duty
cycle is zero (`stop_motor` sets exactly this state). -/
def MotorState.isStopped (m : MotorState) : Prop :=
  m.drive = none ∧ m.duty = 0

/-- The pair of X and Y motors. -/
structure Motors where
  x : MotorState
  y : MotorState
deriving DecidableEq, Repr

/-- Effect of one command on the two motors.  `stop_motor` drives both
direction lines low and sets duty 0; `set_speed` changes only the duty
(through the multiplier and clamp); direction commands change only the lines. -/
def applyCmd (m : Motors) : Cmd → Motors
  | .xSetDir d => { m with x := { m.x with drive := some d } }
  | .ySetDir d => { m with y := { m.y with drive := some d } }
  | .xSetSpeed s => { m with x := { m.x with duty := set_speed_duty s m.x.multiplier } }
  | .ySetSpeed s => { m with y := { m.y with duty := set_speed_duty s m.y.multiplier } }
  | .xStop => { m with x := { m.x with drive := none, duty := 0 } }
  | .yStop => { m with y := { m.y with drive := none, duty := 0 } }

/-- Effect of a whole command trace, applied left to right. -/
def applyTrace (m : Motors) (cs : List Cmd) : Motors :=
  cs.foldl applyCmd m

/-- Claim C10: for every real input `s` (including negative values and values
above 100), `set_speed` commands a duty cycle equal to
`clamp(|s * speed_multiplier|, 0, 100)`: the commanded duty is always within
`[0, 100]`, it equals `|s * multiplier|` whenever that magnitude is at most
100 (so a negative input commands the absolute value of the scaled speed
rather than zero), and it saturates at 100 beyond that. -/
theorem set_speed_clamps_duty (s m : ℚ) :
    (0 ≤ set_speed_duty s m ∧ set_speed_duty s m ≤ 100) ∧
    set_speed_duty s m = min 100 |s * m| ∧
    (|s * m| ≤ 100 → set_speed_duty s m = |s * m|) ∧
    (100 < |s * m| → set_speed_duty s m = 100) ∧
    set_speed_duty (-s) m = set_speed_duty s m := by
  unfold set_speed_duty
  have habs : (0 : ℚ) ≤ |s * m| := abs_nonneg _
  constructor
  · constructor
    · exact le_max_left _ _
    · exact max_le (by norm_num) (min_le_left _ _)
  refine ⟨?_, ?_, ?_, ?_⟩
  · exact max_eq_right (le_min (by norm_num) habs)
  · intro h
    rw [min_eq_right h, max_eq_right habs]
  · intro h
    rw [min_eq_left (le_of_lt h)]
    norm_num
  · rw [neg_mul, abs_neg]

/-- Witness for C10 at the concrete input `s = -30`, `m = 2`: the hypothesis
`|(-30) * 2| ≤ 100` holds and the commanded duty is `60`, not `0`. -/
theorem set_speed_clamps_duty_witness :
    |(-30 : ℚ) * 2| ≤ 100 ∧ set_speed_duty (-30) 2 = 60 := by
  have h := (set_speed_clamps_duty (-30) 2).2.2.1
  have hle : |(-30 : ℚ) * 2| ≤ 100 := by norm_num [abs]
  refine ⟨hle, ?_⟩
  rw [h hle]
  norm_num [abs]

/-- The `direction` string argument of `check_safety_limits`: `'forward'`,
`'reverse'`, or any other string (which matches neither branch). -/
inductive MotorDir where
  | forward
  | reverse
  | other
deriving DecidableEq, Repr

/-- `DCMotorController.check_safety_limits`, with the instance attribute
`self._safety_bad_readings` made explicit: input counter `bad`, result
`(should_stop, max_allowed_speed, new counter)`.  Mirrors the source: only
the limits in the direction of travel are compared; a reading at or past the
absolute limit or the safety margin increments the counter and stops only
from the third consecutive one; a reading in the slow zone returns early with
the capped speed and the counter untouched; otherwise the counter is reset
and `(False, 100)` is returned. -/
def check_safety_limits (bad : ℕ) (current_voltage min_voltage max_voltage : ℚ)
    (safety_margin slow_zone_margin safety_slow_speed : ℚ) (direction : MotorDir) :
    Bool × ℚ × ℕ :=
  let min_safety_limit := min_voltage + safety_margin
  let max_safety_limit := max_voltage - safety_margin
  let min_slow_zone := min_voltage + slow_zone_margin
  let max_slow_zone := max_voltage - slow_zone_margin
  let issue : Bool × ℚ × ℕ :=
    if bad + 1 ≥ 3 then (true, 0, bad + 1)
    else (false, safety_slow_speed, bad + 1)
  match direction with
  | .forward =>
    if current_voltage ≥ max_voltage then issue
    else if current_voltage ≥ max_safety_limit then issue
    else if current_voltage ≥ max_slow_zone then (false, safety_slow_speed, bad)
    else (false, 100, 0)
  | .reverse =>
    if current_voltage ≤ min_voltage then issue
    else if current_voltage ≤ min_safety_limit then issue
    else if current_voltage ≤ min_slow_zone then (false, safety_slow_speed, bad)
    else (false, 100, 0)
  | .other => (false, 100, 0)

/-- A voltage is violating, in the sense of claim C2, when it is at or past
the safety margin in the direction of travel (forward case). -/
def violatingForward (v maxV sm : ℚ) : Prop :=
  maxV - sm ≤ v ∨ maxV ≤ v

theorem check_safety_violating_step (bad : ℕ) (v minV maxV sm szm slow : ℚ)
    (h : violatingForward v maxV sm) :
    check_safety_limits bad v minV maxV sm szm slow .forward =
      (if bad + 1 ≥ 3 then (true, 0, bad + 1) else (false, slow, bad + 1)) := by
  unfold check_safety_limits
  rcases h with h | h
  · rcases le_or_lt maxV v with h2 | h2
    · simp [h2]
    · simp [not_le.mpr h2, h]
  · simp [h]

/-- Counterexample to claim C2: with calibration `min_voltage = 0`,
`max_voltage = 10`, `safety_margin = 1`, `slow_zone_margin = 2` and counter
at `2` (two violating calls so far), a call with the non-violating voltage
`17/2` (strictly below the safety margin `9`) takes the slow-zone early
return and leaves the counter at `2` instead of resetting it to zero — so
the very next violating call already stops, where the claimed reset would
require two more. -/
theorem check_safety_no_reset_in_slow_zone :
    (17 / 2 : ℚ) < 10 - 1 ∧
    (check_safety_limits 2 (17 / 2) 0 10 1 2 30 .forward).2.2 = 2 ∧
    (check_safety_limits 2 10 0 10 1 2 30 .forward).1 = true := by
  refine ⟨by norm_num, ?_, ?_⟩
  · norm_num [check_safety_limits]
  · norm_num [check_safety_limits]

/-- Amended claim C2: for every sequence of calls with `direction='forward'`
and a violating voltage (at or past the max safety margin, e.g.
`current_voltage = max_voltage`), starting from counter 0, `should_stop` is
false on the first and second call and true only on the third consecutive
violating call; a call whose voltage lies strictly below every max-side
threshold (absolute limit, safety margin and slow zone) resets the counter to
zero immediately, while a non-violating call inside the slow zone leaves the
counter unchanged. -/
theorem check_safety_three_consecutive (v minV maxV sm szm slow : ℚ)
    (hv : violatingForward v maxV sm) :
    (check_safety_limits 0 v minV maxV sm szm slow .forward = (false, slow, 1) ∧
     check_safety_limits 1 v minV maxV sm szm slow .forward = (false, slow, 2) ∧
     check_safety_limits 2 v minV maxV sm szm slow .forward = (true, 0, 3)) ∧
    (∀ bad w, w < maxV - szm → w < maxV - sm → w < maxV →
      check_safety_limits bad w minV maxV sm szm slow .forward = (false, 100, 0)) ∧
    (∀ bad w, maxV - szm ≤ w → w < maxV - sm → w < maxV →
      check_safety_limits bad w minV maxV sm szm slow .forward = (false, slow, bad)) := by
  refine ⟨⟨?_, ?_, ?_⟩, ?_, ?_⟩
  · rw [check_safety_violating_step 0 v minV maxV sm szm slow hv]; norm_num
  · rw [check_safety_violating_step 1 v minV maxV sm szm slow hv]; norm_num
  · rw [check_safety_violating_step 2 v minV maxV sm szm slow hv]; norm_num
  · intro bad w h1 h2 h3
    simp [check_safety_limits, not_le.mpr h1, not_le.mpr h2, not_le.mpr h3]
  · intro bad w h1 h2 h3
    simp [check_safety_limits, h1, not_le.mpr h2, not_le.mpr h3]

/-- Witness for the amended C2 at concrete inputs: voltage `10` equals
`max_voltage = 10` (violating), and the three consecutive calls return
`should_stop` false, false, true with counters 1, 2, 3. -/
theorem check_safety_three_consecutive_witness :
    check_safety_limits 0 10 0 10 1 2 30 .forward = (false, 30, 1) ∧
    check_safety_limits 1 10 0 10 1 2 30 .forward = (false, 30, 2) ∧
    check_safety_limits 2 10 0 10 1 2 30 .forward = (true, 0, 3) :=
  (check_safety_three_consecutive 10 0 10 1 2 30 (Or.inr (by norm_num))).1

/-- Claim C8: `check_safety_limits` restricts motion only toward the limit in
the direction of travel.  Whenever a forward call returns a restriction
(`should_stop` or an allowed speed other than the unrestricted 100), the
voltage is at or past one of the max-side thresholds; symmetrically a
reverse call restricts only at or past a min-side threshold.  Motion away
from a limit is never restricted. -/
theorem check_safety_direction_of_travel (bad : ℕ) (v minV maxV sm szm slow : ℚ) :
    (((check_safety_limits bad v minV maxV sm szm slow .forward).1 = true ∨
      (check_safety_limits bad v minV maxV sm szm slow .forward).2.1 ≠ 100) →
      (maxV - szm ≤ v ∨ maxV - sm ≤ v ∨ maxV ≤ v)) ∧
    (((check_safety_limits bad v minV maxV sm szm slow .reverse).1 = true ∨
      (check_safety_limits bad v minV maxV sm szm slow .reverse).2.1 ≠ 100) →
      (v ≤ minV + szm ∨ v ≤ minV + sm ∨ v ≤ minV)) := by
  constructor
  · intro h
    by_contra hc
    push_neg at hc
    obtain ⟨h1, h2, h3⟩ := hc
    rw [show check_safety_limits bad v minV maxV sm szm slow .forward = (false, 100, 0) by
      simp [check_safety_limits, not_le.mpr h1, not_le.mpr h2, not_le.mpr h3]] at h
    simp at h
  · intro h
    by_contra hc
    push_neg at hc
    obtain ⟨h1, h2, h3⟩ := hc
    rw [show check_safety_limits bad v minV maxV sm szm slow .reverse = (false, 100, 0) by
      simp [check_safety_limits, not_le.mpr h1, not_le.mpr h2, not_le.mpr h3]] at h
    simp at h

/-- Witness for C8 at concrete inputs: a forward call at voltage `9` (inside
the safety margin of the `[0, 10]` calibration) is restricted, and the
theorem yields that `9` is at or past a max-side threshold. -/
theorem check_safety_direction_of_travel_witness :
    ((check_safety_limits 0 9 0 10 1 2 30 .forward).2.1 ≠ 100) ∧
    ((10 : ℚ) - 2 ≤ 9 ∨ (10 : ℚ) - 1 ≤ 9 ∨ (10 : ℚ) ≤ 9) := by
  have hr : (check_safety_limits 0 9 0 10 1 2 30 .forward).2.1 ≠ 100 := by
    norm_num [check_safety_limits]
  exact ⟨hr, (check_safety_direction_of_travel 0 9 0 10 1 2 30).1 (Or.inr hr)⟩

/-- `PathRecorder._get_consensus_reading`.  For fewer than one reading the
source performs an emergency stop and returns `0.0`; one reading is returned
as-is; two are averaged; for three (or more, of which only the first three
are inspected) the source builds the three pairwise distances
`[(​|r0-r1|,0,1), (|r0-r2|,0,2), (|r1-r2|,1,2)]` and averages the pair of
minimal distance, ties resolved by Python's lexicographic tuple `min` in
favour of the earlier index pair. -/
def get_consensus_reading : List ℚ → ℚ
  | [] => 0
  | [r] => r
  | [a, b] => (a + b) / 2
  | a :: b :: c :: _ =>
    let d01 := |a - b|
    let d02 := |a - c|
    let d12 := |b - c|
    if d01 ≤ d02 ∧ d01 ≤ d12 then (a + b) / 2
    else if d02 ≤ d12 then (a + c) / 2
    else (b + c) / 2

theorem get_consensus_reading_three (a b c : ℚ) :
    get_consensus_reading [a, b, c] =
      if |a - b| ≤ |a - c| ∧ |a - b| ≤ |b - c| then (a + b) / 2
      else if |a - c| ≤ |b - c| then (a + c) / 2
      else (b + c) / 2 := rfl

/-- `v` is the arithmetic mean of two of the three readings `a b c` whose
mutual distance is minimal among the three pairs (the remaining reading — the
outlier — is excluded). -/
def isMeanOfClosestPair (a b c v : ℚ) : Prop :=
  (v = (a + b) / 2 ∧ |a - b| ≤ |a - c| ∧ |a - b| ≤ |b - c|) ∨
  (v = (a + c) / 2 ∧ |a - c| ≤ |a - b| ∧ |a - c| ≤ |b - c|) ∨
  (v = (b + c) / 2 ∧ |b - c| ≤ |a - b| ∧ |b - c| ≤ |a - c|)

/-- Claim C1: for every list of exactly three sensor readings, the consensus
value computed by the playback engine is the arithmetic mean of the two
readings that are numerically closest to each other (the outlier is
excluded); in particular for the readings `(10.0, 10.2, 50.0)` the consensus
is `10.1`, which does not involve `50.0`. -/
theorem consensus_is_mean_of_closest_pair :
    (∀ a b c : ℚ, isMeanOfClosestPair a b c (get_consensus_reading [a, b, c])) ∧
    get_consensus_reading [10, 102 / 10, 50] = 101 / 10 := by
  constructor
  · intro a b c
    rw [isMeanOfClosestPair, get_consensus_reading_three]
    by_cases h1 : |a - b| ≤ |a - c| ∧ |a - b| ≤ |b - c|
    · rw [if_pos h1]
      exact Or.inl ⟨rfl, h1.1, h1.2⟩
    · rw [if_neg h1]
      rcases not_and_or.mp h1 with h | h
      · push_neg at h
        by_cases h2 : |a - c| ≤ |b - c|
        · rw [if_pos h2]
          exact Or.inr (Or.inl ⟨rfl, le_of_lt h, h2⟩)
        · push_neg at h2
          rw [if_neg (not_le.mpr h2)]
          exact Or.inr (Or.inr ⟨rfl, le_of_lt (lt_trans h2 h), le_of_lt h2⟩)
      · push_neg at h
        by_cases h2 : |a - c| ≤ |b - c|
        · rw [if_pos h2]
          exact Or.inr (Or.inl ⟨rfl, le_of_lt (lt_of_le_of_lt h2 h), h2⟩)
        · push_neg at h2
          rw [if_neg (not_le.mpr h2)]
          exact Or.inr (Or.inr ⟨rfl, le_of_lt h, le_of_lt h2⟩)
  · norm_num [get_consensus_reading, abs]

/-- Calibration constants of one `PositionSensor`. -/
structure SensorCal where
  min_voltage : ℚ
  max_voltage : ℚ
  max_drift_percent : ℚ
deriving DecidableEq, Repr

/-- Mutable filtering state of one `PositionSensor`. -/
structure SensorState where
  last_valid_voltage : Option ℚ
  consecutive_errors : ℕ
deriving DecidableEq, Repr

/-- `PositionSensor._is_voltage_valid`: rejects near-0 V ADC glitches,
near-4.096 V ADC saturation, voltages outside
`[min_voltage * 0.5, max_voltage * 1.5]`, drift from the last valid voltage
above `max_drift_percent` of the calibrated span, and extreme cross-talk
(voltage jump above 0.5 V whose percentage jump exceeds 35%). -/
def is_voltage_valid (cal : SensorCal) (lastValid : Option ℚ) (voltage : ℚ) : Bool :=
  if |voltage| < 1 / 100 then false
  else if |voltage - 4096 / 1000| < 1 / 100 then false
  else if voltage < cal.min_voltage * (1 / 2) ∨ voltage > cal.max_voltage * (3 / 2) then false
  else
    match lastValid with
    | none => true
    | some lv =>
      let voltage_diff := |voltage - lv|
      let voltage_range := cal.max_voltage - cal.min_voltage
      if voltage_diff / voltage_range * 100 > cal.max_drift_percent then false
      else if voltage_diff > 1 / 2 ∧
          |(voltage - cal.min_voltage) / voltage_range * 100 -
            (lv - cal.min_voltage) / voltage_range * 100| > 35 then false
      else true

/-- The retry loop of `PositionSensor.read_voltage` (filtering enabled): each
list entry is one attempt's outcome — `none` when the underlying ADC read
raised, `some v` for the averaged voltage `v` of the attempt's two raw
samples; the list carries at most `max_retries` entries.  Returns the first
accepted voltage: a cold-start baseline (no prior valid voltage and `v`
within `[min_voltage * 0.2, max_voltage * 2.0]`) or any voltage passing
`is_voltage_valid`; `none` when every attempt is rejected. -/
def readVoltageLoop (cal : SensorCal) (lastValid : Option ℚ) :
    List (Option ℚ) → Option ℚ
  | [] => none
  | none :: rest => readVoltageLoop cal lastValid rest
  | some v :: rest =>
    if lastValid = none ∧ cal.min_voltage * (1 / 5) ≤ v ∧ v ≤ cal.max_voltage * 2 then some v
    else if is_voltage_valid cal lastValid v then some v
    else readVoltageLoop cal lastValid rest

/-- `PositionSensor.read_voltage` (filtering enabled): run the bounded retry
loop; on acceptance record the voltage as last valid and reset the error
counter; when every retry fails, increment the error counter and fall back —
first to the last valid voltage while the counter is small, then (the
source's second fallback) to the last valid voltage regardless, and only when
no valid voltage was ever recorded, to the calibrated midpoint.  The function
is total: it always returns a voltage and never propagates an error. -/
def read_voltage (cal : SensorCal) (st : SensorState) (attempts : List (Option ℚ)) :
    ℚ × SensorState :=
  match readVoltageLoop cal st.last_valid_voltage attempts with
  | some v => (v, { last_valid_voltage := some v, consecutive_errors := 0 })
  | none =>
    let errs := st.consecutive_errors + 1
    match st.last_valid_voltage with
    | some lv =>
      if errs ≤ 3 then (lv, { st with consecutive_errors := errs })
      else (lv, { st with consecutive_errors := errs })
    | none => ((cal.min_voltage + cal.max_voltage) / 2, { st with consecutive_errors := errs })

/-- Claim C7: a sensor read always returns a number (the embedding of
`read_voltage` is a total function into the rationals); when every bounded
retry is rejected, the result is the last known-valid voltage if one exists,
and the calibrated midpoint `(min_voltage + max_voltage) / 2` only when no
valid voltage has ever been recorded. -/
theorem read_voltage_fallback (cal : SensorCal) (st : SensorState)
    (attempts : List (Option ℚ))
    (h : readVoltageLoop cal st.last_valid_voltage attempts = none) :
    (∀ lv, st.last_valid_voltage = some lv → (read_voltage cal st attempts).1 = lv) ∧
    (st.last_valid_voltage = none →
      (read_voltage cal st attempts).1 = (cal.min_voltage + cal.max_voltage) / 2) := by
  constructor
  · intro lv hlv
    rw [hlv] at h
    simp only [read_voltage, hlv, h]
    split <;> rfl
  · intro hnone
    rw [hnone] at h
    simp only [read_voltage, hnone, h]

/-- Witness for C7 at a concrete input: calibration `[1 V, 3 V]`, last valid
voltage `2 V`, two attempts that both raised — the loop accepts nothing and
`read_voltage` returns the last valid voltage `2`. -/
theorem read_voltage_fallback_witness :
    readVoltageLoop ⟨1, 3, 10⟩ (some 2) [none, none] = none ∧
    (read_voltage ⟨1, 3, 10⟩ ⟨some 2, 0⟩ [none, none]).1 = 2 := by
  have h : readVoltageLoop ⟨1, 3, 10⟩ (some 2) [none, none] = none := rfl
  exact ⟨h, (read_voltage_fallback ⟨1, 3, 10⟩ ⟨some 2, 0⟩ [none, none] h).1 2 rfl⟩

/-- Semantic direction of a path, as the playback code derives it from the
path's name: a name containing `'extend'`, a name containing `'retract'`
(checked after `'extend'`), or any other name. -/
inductive PathKind where
  | extendPath
  | retractPath
  | otherPath
deriving DecidableEq, Repr

/-- The waypoint skip decision of `PathRecorder._playback_loop`: for an
extend path, skip when the current position is already above the target on
either axis; for a retract path, skip when the target is above the current
position on either axis or the current position is already below the target
on both axes; unknown paths never skip. -/
def should_skip (kind : PathKind) (current_x current_y target_x target_y : ℚ) : Bool :=
  match kind with
  | .extendPath => decide (current_x > target_x) || decide (current_y > target_y)
  | .retractPath =>
    (decide (target_x > current_x) || decide (target_y > current_y)) ||
    (decide (current_x < target_x) && decide (current_y < target_y))
  | .otherPath => false

/-- Claim C4: with an extend path and current position `(70, 70)`, a waypoint
targeting `(50, 50)` is skipped and a waypoint targeting `(90, 90)` is not;
in general an extend waypoint is skipped exactly when the current position
exceeds the waypoint's target on some governing axis, and symmetrically a
retract waypoint is skipped exactly when the current position is below the
waypoint's target on some governing axis. -/
theorem skip_logic_extend_retract :
    should_skip .extendPath 70 70 50 50 = true ∧
    should_skip .extendPath 70 70 90 90 = false ∧
    (∀ cx cy tx ty : ℚ, should_skip .extendPath cx cy tx ty = true ↔ (tx < cx ∨ ty < cy)) ∧
    (∀ cx cy tx ty : ℚ, should_skip .retractPath cx cy tx ty = true ↔ (cx < tx ∨ cy < ty)) := by
  refine ⟨by norm_num [should_skip], by norm_num [should_skip], ?_, ?_⟩
  · intro cx cy tx ty
    simp [should_skip]
  · intro cx cy tx ty
    simp only [should_skip, Bool.or_eq_true, Bool.and_eq_true, decide_eq_true_eq]
    constructor
    · rintro ((h | h) | ⟨h, h2⟩)
      · exact Or.inl h
      · exact Or.inr h
      · exact Or.inl h
    · rintro (h | h)
      · exact Or.inl (Or.inl h)
      · exact Or.inl (Or.inr h)

/-- `PathPoint` of src/path_recorder.py: one recorded waypoint. -/
structure PathPoint where
  timestamp : ℚ
  x_position : ℚ
  y_position : ℚ
  duration_from_start : ℚ
deriving DecidableEq, Repr

/-- The JSON dictionary persisted for one point: every field optional, to
model older schema variants with missing keys. -/
structure PointDict where
  timestamp : Option ℚ
  x_position : Option ℚ
  y_position : Option ℚ
  duration_from_start : Option ℚ
deriving DecidableEq, Repr

/-- `PathPoint.to_dict`: serialisation always emits all four fields. -/
def PathPoint.to_dict (p : PathPoint) : PointDict :=
  ⟨some p.timestamp, some p.x_position, some p.y_position, some p.duration_from_start⟩

/-- The JSON document written by `PathRecorder.save_path`. -/
structure PathDict where
  name : String
  recorded_at : ℚ
  duration : ℚ
  point_count : ℕ
  points : List PointDict
deriving DecidableEq, Repr

/-- `PathRecorder.save_path`: serialise the path (duration is the last
point's `duration_from_start`, or 0 for an empty path). -/
def save_path (path_name : String) (now : ℚ) (path_data : List PathPoint) : PathDict :=
  { name := path_name,
    recorded_at := now,
    duration := (path_data.getLast?).elim 0 PathPoint.duration_from_start,
    point_count := path_data.length,
    points := path_data.map PathPoint.to_dict }

/-- The per-point conversion inside `PathRecorder.load_path`: a dict carrying
both `x_position` and `y_position` keys takes the new-format branch — keep
timestamp (default 0) and positions, reset `duration_from_start` to 0; a dict
missing either position key reaches `PathPoint.from_dict`, which raises on
the missing required field and aborts the whole load (`none`). -/
def convertPoint (d : PointDict) : Option PathPoint :=
  match d.x_position, d.y_position with
  | some x, some y => some ⟨d.timestamp.getD 0, x, y, 0⟩
  | _, _ => none

/-- The point-reconstruction loop of `PathRecorder.load_path`: convert each
dict in order; any raising conversion makes the whole load fail. -/
def loadPoints : List PointDict → Option (List PathPoint)
  | [] => some []
  | d :: rest =>
    match convertPoint d with
    | none => none
    | some p => (loadPoints rest).map (p :: ·)

/-- `PathRecorder.load_path` applied to a previously saved document. -/
def load_path (d : PathDict) : Option (List PathPoint) :=
  loadPoints d.points

/-- What a round-trip does to one point: positions and timestamp survive,
`duration_from_start` is reset to 0 by the loader's new-format branch. -/
def resetDuration (p : PathPoint) : PathPoint :=
  ⟨p.timestamp, p.x_position, p.y_position, 0⟩

/-- The 1-based sequence numbers of a waypoint list (insertion order is
playback order; the stored points carry no explicit sequence field). -/
def seqNumbers (l : List PathPoint) : List ℕ :=
  (List.range l.length).map (· + 1)

theorem load_save_points (path_name : String) (now : ℚ) (pts : List PathPoint) :
    load_path (save_path path_name now pts) = some (pts.map resetDuration) := by
  unfold load_path save_path
  induction pts with
  | nil => rfl
  | cons p ps ih =>
    simp only [List.map_cons, loadPoints, convertPoint, PathPoint.to_dict] at ih ⊢
    rw [ih]
    rfl

/-- Claim C9: saving a path to disk and reloading it yields waypoints whose
`x` and `y` percentage values are identical to the saved ones, in the same
order, with ascending (1-based) sequence numbers; this holds for every path,
in particular for one of 5 waypoints. -/
theorem save_load_roundtrip (path_name : String) (now : ℚ) (pts : List PathPoint) :
    (load_path (save_path path_name now pts)).map (List.map PathPoint.x_position) =
      some (pts.map PathPoint.x_position) ∧
    (load_path (save_path path_name now pts)).map (List.map PathPoint.y_position) =
      some (pts.map PathPoint.y_position) ∧
    (load_path (save_path path_name now pts)).map List.length = some pts.length ∧
    load_path (save_path path_name now pts) = some (pts.map resetDuration) ∧
    List.Pairwise (· < ·) (seqNumbers (pts.map resetDuration)) := by
  rw [load_save_points path_name now pts]
  refine ⟨?_, ?_, ?_, rfl, ?_⟩
  · simp [List.map_map, resetDuration, Function.comp]
  · simp [List.map_map, resetDuration, Function.comp]
  · simp
  · exact (List.pairwise_lt_range _).map _ (fun h => by omega)

/-- The mutable fields of `PathRecorder` touched by `start_recording` and
`play_path` (threads are abstracted away: on success the worker is spawned
after these fields are set). -/
structure RecorderState where
  is_recording : Bool
  is_playing : Bool
  current_path_name : Option String
  current_path : List PathPoint
  current_playback_path : List PathPoint
  recording_start_time : ℚ
  playback_speed : ℚ
  manual_step_mode : Bool
deriving DecidableEq, Repr

/-- `PathRecorder.start_recording`: refuse while already recording, refuse
while playing back; otherwise reset the buffer, stamp the start time and the
resolved name (`auto_name` stands for the generated `path_<timestamp>` used
when no name, or an empty name, is supplied) and mark recording. -/
def start_recording (st : RecorderState) (path_name : Option String)
    (auto_name : String) (now : ℚ) : Bool × RecorderState :=
  if st.is_recording then (false, st)
  else if st.is_playing then (false, st)
  else
    let name := match path_name with
      | some s => if s = "" then auto_name else s
      | none => auto_name
    (true, { st with current_path := [], recording_start_time := now,
                     is_recording := true, current_path_name := some name })

/-- `PathRecorder.play_path`: refuse while already playing; then — before the
recording guard — store the requested name into `current_path_name`; refuse
while recording; `load_result` is the outcome of `load_path` (`none` for a
failed load, and an empty list is also falsy); on success record the loaded
path, speed and mode and mark playing. -/
def play_path (st : RecorderState) (path_name : String)
    (load_result : Option (List PathPoint)) (speed_multiplier : ℚ)
    (manual_step : Bool) : Bool × RecorderState :=
  if st.is_playing then (false, st)
  else
    let st1 := { st with current_path_name := some path_name }
    if st1.is_recording then (false, st1)
    else
      match load_result with
      | none => (false, st1)
      | some pts =>
        if pts = [] then (false, st1)
        else (true, { st1 with is_playing := true, current_playback_path := pts,
                               playback_speed := speed_multiplier,
                               manual_step_mode := manual_step })

/-- Counterexample to claim C5: with recording active under the name "bar"
(and playback idle), `play_path "foo"` is rejected but does not leave all
recording state unchanged — it overwrites `current_path_name` with "foo"
before reaching the recording guard. -/
theorem play_path_mutates_while_recording :
    (play_path ⟨true, false, some "bar", [], [], 0, 1, false⟩ "foo"
        (some [⟨0, 0, 0, 0⟩]) 1 false).1 = false ∧
    (play_path ⟨true, false, some "bar", [], [], 0, 1, false⟩ "foo"
        (some [⟨0, 0, 0, 0⟩]) 1 false).2.current_path_name = some "foo" ∧
    (⟨true, false, some "bar", [], [], 0, 1, false⟩ :
        RecorderState).current_path_name = some "bar" := by
  refine ⟨rfl, rfl, rfl⟩

/-- Amended claim C5: calling `start_recording` while playback is active
returns failure and leaves the entire recorder state (in particular all
playback state) unchanged; calling `play_path` while recording is active
returns failure synchronously and leaves the state unchanged except that
`current_path_name` has already been overwritten with the requested name
before the recording guard runs. -/
theorem record_playback_mutual_exclusion (st : RecorderState) :
    (∀ path_name auto_name now, st.is_playing = true →
      start_recording st path_name auto_name now = (false, st)) ∧
    (∀ path_name load_result spd ms, st.is_recording = true → st.is_playing = false →
      play_path st path_name load_result spd ms =
        (false, { st with current_path_name := some path_name })) := by
  constructor
  · intro path_name auto_name now hp
    unfold start_recording
    by_cases hr : st.is_recording
    · rw [if_pos hr]
    · rw [if_neg hr, hp]
      rfl
  · intro path_name load_result spd ms hr hp
    unfold play_path
    rw [hp]
    simp only [Bool.false_eq_true, if_false, hr, if_true]

/-- Witness for the amended C5 at concrete states: a playing recorder rejects
`start_recording` unchanged, and a recording recorder rejects `play_path`
with only `current_path_name` overwritten. -/
theorem record_playback_mutual_exclusion_witness :
    start_recording ⟨false, true, none, [], [], 0, 1, false⟩ (some "p") "auto" 5 =
      (false, ⟨false, true, none, [], [], 0, 1, false⟩) ∧
    play_path ⟨true, false, some "bar", [], [], 0, 1, false⟩ "foo" none 1 false =
      (false, ⟨true, false, some "foo", [], [], 0, 1, false⟩) := by
  constructor
  · exact (record_playback_mutual_exclusion ⟨false, true, none, [], [], 0, 1, false⟩).1
      (some "p") "auto" 5 rfl
  · exact (record_playback_mutual_exclusion ⟨true, false, some "bar", [], [], 0, 1, false⟩).2
      "foo" none 1 false rfl rfl

/-- `expected_direction` of one axis as computed at the start of
`_move_to_position_simultaneous`: `1` if the target is above the start
reading, `-1` if below, `0` if equal. -/
def dirSign (target start : ℚ) : ℤ :=
  if target > start then 1 else if target < start then -1 else 0

/-- `PathRecorder._is_axis_at_target`: true on significant overshoot past the
target in the axis's initial direction (beyond the fixed 2% overshoot
tolerance) or when the error is strictly within tolerance. -/
def atTarget (initialDir : ℤ) (current target tolerance : ℚ) : Bool :=
  if initialDir > 0 ∧ current > target + 2 then true
  else if initialDir < 0 ∧ current < target - 2 then true
  else decide (|current - target| < tolerance)

/-- `calculate_x_approach_speed`: damped approach speed for the X motor. -/
def xApproachSpeed (x_error base_speed : ℚ) : ℚ :=
  if x_error ≤ 3 / 10 then max 28 (base_speed * (6 / 10))
  else if x_error ≤ 1 then base_speed * (7 / 10)
  else base_speed

/-- `calculate_y_approach_speed`: damped approach speed for the Y motor. -/
def yApproachSpeed (y_error base_speed : ℚ) : ℚ :=
  if y_error ≤ 8 / 100 then base_speed * (3 / 10)
  else if y_error ≤ 3 / 10 then base_speed * (5 / 10)
  else base_speed

/-- Direction chosen from the path type, with the position-based fallback for
unknown path names.  The same selection runs at move setup for both axes and
again inside the loop each time a Y speed command is re-issued. -/
def pathDir (kind : PathKind) (target current : ℚ) : Dir :=
  match kind with
  | .extendPath => .forward
  | .retractPath => .reverse
  | .otherPath => if target > current then .forward else .reverse

/-- One iteration's environment inside the settling loop of
`_move_to_position_simultaneous`: the playback-stop flag observed false
(`cancel`), an iteration in which no sensor reading could be obtained
(`sensorFail`), or the pair of consensus positions computed from the three
samples (`reading`). -/
inductive MoveEvent where
  | cancel
  | sensorFail
  | reading (cx cy : ℚ)
deriving DecidableEq, Repr

/-- The loop-carried state of `_move_to_position_simultaneous`: the ad-hoc
`x_stopped`/`y_stopped` lock flags, the `x_last_position`/`y_last_position`
trackers, and the consecutive sensor-failure counter. -/
structure MoveState where
  xStopped : Bool
  yStopped : Bool
  xLast : Option ℚ
  yLast : Option ℚ
  sensorFails : ℕ
deriving DecidableEq, Repr

/-- Outcome of one loop iteration: continue with a new state, or return from
the move with a success flag. -/
inductive StepRes where
  | next (st : MoveState)
  | done (success : Bool)
deriving DecidableEq, Repr

/-- The emergency / completion stop sequence issued when both axes are at
target (`stop_motor`, `set_speed(0)` for each motor). -/
def stopAllCmds : List Cmd :=
  [Cmd.xStop, Cmd.xSetSpeed 0, Cmd.yStop, Cmd.ySetSpeed 0]

/-- The X-axis stop/lock block of the loop body: first entry into target
locks the axis with a doubled stop; a locked axis is re-stopped while truly
at target, and unlocked again when it is not. -/
def xStopSection (st : MoveState) (xAt : Bool) (x_error x_tolerance : ℚ) :
    List Cmd × MoveState :=
  if xAt && !st.xStopped then
    ([Cmd.xStop, Cmd.xSetSpeed 0, Cmd.xStop], { st with xStopped := true })
  else if st.xStopped then
    if x_error < x_tolerance then ([Cmd.xStop, Cmd.xSetSpeed 0], st)
    else ([], { st with xStopped := false })
  else ([], st)

/-- The Y-axis stop/lock block of the loop body (same shape as X). -/
def yStopSection (st : MoveState) (yAt : Bool) (y_error y_tolerance : ℚ) :
    List Cmd × MoveState :=
  if yAt && !st.yStopped then
    ([Cmd.yStop, Cmd.ySetSpeed 0, Cmd.yStop], { st with yStopped := true })
  else if st.yStopped then
    if y_error < y_tolerance then ([Cmd.yStop, Cmd.ySetSpeed 0], st)
    else ([], { st with yStopped := false })
  else ([], st)

/-- The X-axis command block: when the axis is neither locked nor at target,
run the catastrophic-reversal check against `x_last_position` (which may lock
the axis) and then — unconditionally within this branch, as in the source —
issue the damped speed command and record the position.  No direction command
is ever issued for X inside the loop. -/
def xCmdSection (st : MoveState) (xAt : Bool) (cx target_x x_error x_tolerance : ℚ) :
    List Cmd × MoveState :=
  if st.xStopped then ([], st)
  else if decide (x_error > x_tolerance) && !xAt then
    let locked : List Cmd × MoveState :=
      match st.xLast with
      | some lx =>
        if |cx - lx| > 15 ∧ x_error > |lx - target_x| + 10 then
          ([Cmd.xStop, Cmd.xSetSpeed 0], { st with xStopped := true })
        else ([], st)
      | none => ([], st)
    (locked.1 ++ [Cmd.xSetSpeed (xApproachSpeed x_error 40)],
     { locked.2 with xLast := some cx })
  else ([], st)

/-- The Y-axis command block: like X, but with the lenient large-target /
small-target reversal thresholds, and — unlike X — a direction command
re-derived from the path type (with positional fallback) before every speed
command. -/
def yCmdSection (kind : PathKind) (st : MoveState) (yAt : Bool)
    (cy target_y y_error y_tolerance : ℚ) : List Cmd × MoveState :=
  if st.yStopped then ([], st)
  else if decide (y_error > y_tolerance) && !yAt then
    let locked : List Cmd × MoveState :=
      match st.yLast with
      | some ly =>
        if target_y > 10 then
          if |cy - ly| > 5 ∧ y_error > |ly - target_y| + 3 then
            ([Cmd.yStop, Cmd.ySetSpeed 0], { st with yStopped := true })
          else ([], st)
        else
          if |cy - ly| > 15 ∧ y_error > |ly - target_y| + 8 then
            ([Cmd.yStop, Cmd.ySetSpeed 0], { st with yStopped := true })
          else ([], st)
      | none => ([], st)
    (locked.1 ++ [Cmd.ySetDir (pathDir kind target_y cy),
                  Cmd.ySetSpeed (yApproachSpeed y_error 40)],
     { locked.2 with yLast := some cy })
  else ([], st)

/-- One iteration of the settling loop of `_move_to_position_simultaneous`. -/
def simMoveStep (kind : PathKind) (target_x target_y x_tolerance y_tolerance : ℚ)
    (dx0 dy0 : ℤ) (st : MoveState) : MoveEvent → List Cmd × StepRes
  | .cancel => ([], .done false)
  | .sensorFail =>
    if st.sensorFails + 1 ≥ 5 then (stopAllCmds, .done false)
    else ([], .next { st with sensorFails := st.sensorFails + 1 })
  | .reading cx cy =>
    let st0 := { st with sensorFails := 0 }
    let x_error := |cx - target_x|
    let y_error := |cy - target_y|
    let xAt := atTarget dx0 cx target_x x_tolerance
    let yAt := atTarget dy0 cy target_y y_tolerance
    let xs := xStopSection st0 xAt x_error x_tolerance
    let ys := yStopSection xs.2 yAt y_error y_tolerance
    if xAt && yAt then
      (xs.1 ++ ys.1 ++ stopAllCmds, .done true)
    else
      let xc := xCmdSection ys.2 xAt cx target_x x_error x_tolerance
      let yc := yCmdSection kind xc.2 yAt cy target_y y_error y_tolerance
      (xs.1 ++ ys.1 ++ xc.1 ++ yc.1, .next yc.2)

/-- The settling loop: one `simMoveStep` per environment event; when the
wait budget elapses (no events remain) both motors are stopped and the move
returns a timeout failure. -/
def simMoveLoop (kind : PathKind) (target_x target_y x_tolerance y_tolerance : ℚ)
    (dx0 dy0 : ℤ) (st : MoveState) : List MoveEvent → List Cmd × Bool
  | [] => ([Cmd.xStop, Cmd.yStop], false)
  | e :: rest =>
    match simMoveStep kind target_x target_y x_tolerance y_tolerance dx0 dy0 st e with
    | (cmds, .done b) => (cmds, b)
    | (cmds, .next st') =>
      let r := simMoveLoop kind target_x target_y x_tolerance y_tolerance dx0 dy0 st' rest
      (cmds ++ r.1, r.2)

/-- The fresh per-waypoint state: lock flags cleared, position trackers
reset, failure counter zero. -/
def initialMoveState : MoveState := ⟨false, false, none, none, 0⟩

/-- `PathRecorder._move_to_position_simultaneous`: `startRead` is the first
position read (fixing the `expected_direction` signs), `initRead` the second
(feeding the positional direction fallback); then both direction commands,
both initial speed commands, and the settling loop. -/
def simMove (kind : PathKind) (target_x target_y x_tolerance y_tolerance : ℚ)
    (startRead initRead : ℚ × ℚ) (events : List MoveEvent) : List Cmd × Bool :=
  let dx0 := dirSign target_x startRead.1
  let dy0 := dirSign target_y startRead.2
  let setup := [Cmd.xSetDir (pathDir kind target_x initRead.1),
                Cmd.ySetDir (pathDir kind target_y initRead.2),
                Cmd.xSetSpeed 50, Cmd.ySetSpeed 50]
  let r := simMoveLoop kind target_x target_y x_tolerance y_tolerance dx0 dy0
    initialMoveState events
  (setup ++ r.1, r.2)

/-- Claim C3, failing input: a path whose name contains neither "extend" nor
"retract", targets `(50, 50)`, both position reads `(40, 40)` at move start
(so both initial directions are forward), and one loop iteration whose
consensus reading is `(52, 52)` — past the target but within the overshoot
band and outside tolerance.  The loop's positional fallback then re-derives
the Y direction from `target_y > current_y` and commands reverse, so the
trace of the move contains a forward Y direction command followed by a
reverse one: direction is reversed mid-waypoint, contradicting the
unidirectional-per-waypoint design. -/
theorem y_direction_reversed_mid_waypoint :
    (simMove .otherPath 50 50 1 1 (40, 40) (40, 40) [.reading 52 52]).1 =
      [Cmd.xSetDir .forward, Cmd.ySetDir .forward, Cmd.xSetSpeed 50, Cmd.ySetSpeed 50,
       Cmd.xSetSpeed 40, Cmd.ySetDir .reverse, Cmd.ySetSpeed 40, Cmd.xStop, Cmd.yStop] ∧
    Cmd.ySetDir Dir.forward ∈
      (simMove .otherPath 50 50 1 1 (40, 40) (40, 40) [.reading 52 52]).1 ∧
    Cmd.ySetDir Dir.reverse ∈
      (simMove .otherPath 50 50 1 1 (40, 40) (40, 40) [.reading 52 52]).1 := by
  have h : (simMove .otherPath 50 50 1 1 (40, 40) (40, 40) [.reading 52 52]).1 =
      [Cmd.xSetDir .forward, Cmd.ySetDir .forward, Cmd.xSetSpeed 50, Cmd.ySetSpeed 50,
       Cmd.xSetSpeed 40, Cmd.ySetDir .reverse, Cmd.ySetSpeed 40, Cmd.xStop, Cmd.yStop] := by
    norm_num [simMove, simMoveLoop, simMoveStep, xStopSection, yStopSection,
      xCmdSection, yCmdSection, atTarget, pathDir, dirSign, xApproachSpeed,
      yApproachSpeed, initialMoveState, stopAllCmds, abs]
  refine ⟨h, ?_, ?_⟩ <;> rw [h] <;> simp

theorem set_speed_duty_zero (m : ℚ) : set_speed_duty 0 m = 0 := by
  simp [set_speed_duty]

theorem applyTrace_append (m : Motors) (cs ds : List Cmd) :
    applyTrace m (cs ++ ds) = applyTrace (applyTrace m cs) ds :=
  List.foldl_append _ _ _ _

theorem stop_pair_stopped (m : Motors) :
    (applyTrace m [Cmd.xStop, Cmd.yStop]).x.isStopped ∧
    (applyTrace m [Cmd.xStop, Cmd.yStop]).y.isStopped := by
  simp [applyTrace, applyCmd, MotorState.isStopped]

theorem stopAll_stopped (m : Motors) :
    (applyTrace m stopAllCmds).x.isStopped ∧ (applyTrace m stopAllCmds).y.isStopped := by
  simp [stopAllCmds, applyTrace, applyCmd, MotorState.isStopped, set_speed_duty_zero]

theorem simMoveStep_done_true (kind : PathKind) (tx ty xtol ytol : ℚ) (dx0 dy0 : ℤ)
    (st : MoveState) (e : MoveEvent) (cmds : List Cmd)
    (h : simMoveStep kind tx ty xtol ytol dx0 dy0 st e = (cmds, .done true)) :
    ∃ cs, cmds = cs ++ stopAllCmds := by
  cases e with
  | cancel => simp [simMoveStep] at h
  | sensorFail =>
    rw [simMoveStep] at h
    split at h
    · injection h with h1 h2
      injection h2 with h3
      simp at h3
    · simp at h
  | reading cx cy =>
    rw [simMoveStep] at h
    split at h
    · injection h with h1 h2
      exact ⟨_, h1.symm⟩
    · simp at h

theorem simMoveLoop_cons_done {kind : PathKind} {tx ty xtol ytol : ℚ} {dx0 dy0 : ℤ}
    {st : MoveState} {e : MoveEvent} {cmds : List Cmd} {b : Bool}
    (rest : List MoveEvent)
    (h : simMoveStep kind tx ty xtol ytol dx0 dy0 st e = (cmds, .done b)) :
    simMoveLoop kind tx ty xtol ytol dx0 dy0 st (e :: rest) = (cmds, b) := by
  rw [simMoveLoop, h]

theorem simMoveLoop_cons_next {kind : PathKind} {tx ty xtol ytol : ℚ} {dx0 dy0 : ℤ}
    {st : MoveState} {e : MoveEvent} {cmds : List Cmd} {st' : MoveState}
    (rest : List MoveEvent)
    (h : simMoveStep kind tx ty xtol ytol dx0 dy0 st e = (cmds, .next st')) :
    simMoveLoop kind tx ty xtol ytol dx0 dy0 st (e :: rest) =
      (cmds ++ (simMoveLoop kind tx ty xtol ytol dx0 dy0 st' rest).1,
       (simMoveLoop kind tx ty xtol ytol dx0 dy0 st' rest).2) := by
  rw [simMoveLoop, h]

theorem simMoveLoop_true_stops (kind : PathKind) (tx ty xtol ytol : ℚ) (dx0 dy0 : ℤ) :
    ∀ (events : List MoveEvent) (st : MoveState) (m : Motors),
      (simMoveLoop kind tx ty xtol ytol dx0 dy0 st events).2 = true →
      (applyTrace m (simMoveLoop kind tx ty xtol ytol dx0 dy0 st events).1).x.isStopped ∧
      (applyTrace m (simMoveLoop kind tx ty xtol ytol dx0 dy0 st events).1).y.isStopped := by
  intro events
  induction events with
  | nil => intro st m h; simp [simMoveLoop] at h
  | cons e rest ih =>
    intro st m h
    rcases hstep : simMoveStep kind tx ty xtol ytol dx0 dy0 st e with ⟨cmds, res⟩
    cases res with
    | done b =>
      rw [simMoveLoop_cons_done rest hstep] at h ⊢
      subst h
      obtain ⟨cs, hcs⟩ := simMoveStep_done_true kind tx ty xtol ytol dx0 dy0 st e cmds hstep
      subst hcs
      simp only [applyTrace_append]
      exact stopAll_stopped _
    | next st' =>
      rw [simMoveLoop_cons_next rest hstep] at h ⊢
      simp only at h ⊢
      simp only [applyTrace_append]
      exact ih st' (applyTrace m cmds) h

theorem simMove_true_stops (kind : PathKind) (tx ty xtol ytol : ℚ)
    (startRead initRead : ℚ × ℚ) (events : List MoveEvent) (m : Motors)
    (h : (simMove kind tx ty xtol ytol startRead initRead events).2 = true) :
    (applyTrace m (simMove kind tx ty xtol ytol startRead initRead events).1).x.isStopped ∧
    (applyTrace m (simMove kind tx ty xtol ytol startRead initRead events).1).y.isStopped := by
  rw [simMove] at h ⊢
  simp only at h ⊢
  rw [applyTrace_append]
  exact simMoveLoop_true_stops kind tx ty xtol ytol _ _ events initialMoveState _ h

/-- The tolerance adjustment of `_playback_loop` for targets near 0%: 40% of
the target with a 0.1% floor, otherwise the nominal tolerance. -/
def adjustTolerance (target base : ℚ) : ℚ :=
  if target ≤ 1 then max (1 / 10) (target * (2 / 5)) else base

/-- Why playback left the worker: path finished (or broken out of, reaching
the final stop commands), aborted via the same final stops, or an exception
escaping to the outer handler of `_playback_loop`. -/
inductive PbExit where
  | completed
  | aborted
  | errored
deriving DecidableEq, Repr

/-- Environment of one waypoint iteration of `_playback_loop`: the
`is_playing` flag observed at the top, the skip-logic position read (which
never raises — `TVArmController.get_current_position` catches internally),
the two position reads and loop events of the simultaneous move, whether the
post-success callback / manual-step I/O raised (the only points inside the
iteration that can raise, all of which run after a successful move), and
whether the user answered `q` in manual-step mode. -/
structure WpEnv where
  playing : Bool
  skipPos : ℚ × ℚ
  startRead : ℚ × ℚ
  initRead : ℚ × ℚ
  moveEvents : List MoveEvent
  afterRaise : Bool
  manualQuit : Bool
deriving DecidableEq, Repr

/-- `PathRecorder._playback_loop`: iterate the waypoints, applying the skip
logic, the tolerance adjustment (nominal tolerances 0.5% for X, 0.2% for Y)
and the simultaneous move; a failed move or an observed stop flag breaks out
to the final stop commands; an exception after a successful move exits
through the outer handler without further commands; exhausting the
environment schedule ends the run at the final stop commands. -/
def playbackLoop (kind : PathKind) (manualStep : Bool) :
    List PathPoint → List WpEnv → List Cmd × PbExit
  | [], _ => ([Cmd.xStop, Cmd.yStop], .completed)
  | _ :: _, [] => ([Cmd.xStop, Cmd.yStop], .aborted)
  | wp :: wps, env :: envs =>
    if !env.playing then ([Cmd.xStop, Cmd.yStop], .aborted)
    else if should_skip kind env.skipPos.1 env.skipPos.2 wp.x_position wp.y_position then
      playbackLoop kind manualStep wps envs
    else
      let xtol := adjustTolerance wp.x_position (1 / 2)
      let ytol := adjustTolerance wp.y_position (1 / 5)
      let mv := simMove kind wp.x_position wp.y_position xtol ytol
        env.startRead env.initRead env.moveEvents
      if !mv.2 then (mv.1 ++ [Cmd.xStop, Cmd.yStop], .aborted)
      else if env.afterRaise then (mv.1, .errored)
      else if manualStep && env.manualQuit then (mv.1 ++ [Cmd.xStop, Cmd.yStop], .aborted)
      else
        let r := playbackLoop kind manualStep wps envs
        (mv.1 ++ r.1, r.2)

/-- Claim C6: every playback run — completed, aborted by cancellation, move
timeout, sensor failure or move failure, or exited through the exception
handler — leaves both motors commanded to stop when the worker exits,
whatever their prior state; and in particular, when the move's wait budget
elapses without both axes settling, the move stops both motors and returns a
timeout failure. -/
theorem playback_leaves_motors_stopped :
    (∀ (kind : PathKind) (manualStep : Bool) (wps : List PathPoint)
        (envs : List WpEnv) (m : Motors),
      (applyTrace m (playbackLoop kind manualStep wps envs).1).x.isStopped ∧
      (applyTrace m (playbackLoop kind manualStep wps envs).1).y.isStopped) ∧
    (∀ (kind : PathKind) (tx ty xtol ytol : ℚ) (dx0 dy0 : ℤ) (st : MoveState)
        (m : Motors),
      simMoveLoop kind tx ty xtol ytol dx0 dy0 st [] = ([Cmd.xStop, Cmd.yStop], false) ∧
      (applyTrace m (simMoveLoop kind tx ty xtol ytol dx0 dy0 st []).1).x.isStopped ∧
      (applyTrace m (simMoveLoop kind tx ty xtol ytol dx0 dy0 st []).1).y.isStopped) := by
  constructor
  · intro kind manualStep wps
    induction wps with
    | nil =>
      intro envs m
      exact stop_pair_stopped m
    | cons wp wps ih =>
      intro envs m
      cases envs with
      | nil => exact stop_pair_stopped m
      | cons env envs =>
        rw [playbackLoop]
        by_cases hp : env.playing
        · rw [hp]
          simp only [Bool.not_true, Bool.false_eq_true, if_false]
          by_cases hskip : should_skip kind env.skipPos.1 env.skipPos.2
              wp.x_position wp.y_position
          · rw [if_pos hskip]
            exact ih envs m
          · rw [if_neg hskip]
            by_cases hmv : (simMove kind wp.x_position wp.y_position
                (adjustTolerance wp.x_position (1 / 2)) (adjustTolerance wp.y_position (1 / 5))
                env.startRead env.initRead env.moveEvents).2
            · rw [hmv]
              simp only [Bool.not_true, Bool.false_eq_true, if_false]
              by_cases hraise : env.afterRaise
              · rw [if_pos hraise]
                exact simMove_true_stops kind wp.x_position wp.y_position _ _
                  env.startRead env.initRead env.moveEvents m hmv
              · rw [if_neg hraise]
                by_cases hquit : manualStep && env.manualQuit
                · rw [hquit]
                  simp only [if_true, applyTrace_append]
                  exact stop_pair_stopped _
                · rw [Bool.not_eq_true] at hquit
                  rw [hquit]
                  simp only [Bool.false_eq_true, if_false, applyTrace_append]
                  exact ih envs _
            · rw [Bool.not_eq_true] at hmv
              rw [hmv]
              simp only [Bool.not_false, if_true, applyTrace_append]
              exact stop_pair_stopped _
        · rw [Bool.not_eq_true] at hp
          rw [hp]
          simp only [Bool.not_false, if_true]
          exact stop_pair_stopped m
  · intro kind tx ty xtol ytol dx0 dy0 st m
    exact ⟨rfl, stop_pair_stopped m⟩

end TVArm
